import Mathlib

/-!
Shallow embedding of the mount-time animation sequencer in
`src/app/index.tsx` (the only source file of the repository).

Animated scalar values (JavaScript numbers) are modelled as rationals and
time is measured in milliseconds (also a rational).  The reanimated
combinators used by the source — `withTiming`, `withSequence`,
`withRepeat(·, -1, false)` — are embedded as explicit trajectory
functions: a timing animation maps elapsed time since its start to the
current value of the animated cell.

The fade-in uses `withTiming(1, { duration: 1000 })` with the library's
default easing, which is the in-out quadratic curve; that curve has a
closed form and is embedded concretely as `easeInOutQuad`.  The pulse legs
use `Easing.inOut(Easing.ease)`, a cubic Bezier curve with control points
(0.25, 0.1) and (0.25, 1).  A Bezier easing has no closed form as a
function of normalized progress, so the pulse trajectory is parametrized
by an arbitrary easing curve satisfying the properties the Bezier curve
has: it maps 0 to 0, 1 to 1, is monotone on [0,1] (hence stays in [0,1]).
-/

namespace Sequencer

/-- Properties of an easing curve: maps normalized progress in `[0,1]` to
eased progress, fixing the endpoints and monotone in between.  The curve
`Easing.inOut(Easing.ease)` used by the pulse legs (an in-out cubic Bezier
with y-control values 0.1 and 1) satisfies all three. -/
structure IsEasing (e : ℚ → ℚ) : Prop where
  map_zero : e 0 = 0
  map_one : e 1 = 1
  mono : ∀ s t : ℚ, 0 ≤ s → s ≤ t → t ≤ 1 → e s ≤ e t

/-- The default easing of `withTiming`: `Easing.inOut(Easing.quad)`,
`t ↦ if t < 1/2 then 2 t² else 1 − 2 (1−t)²`.  Used by the fade-in, which
passes no explicit easing. -/
def easeInOutQuad (t : ℚ) : ℚ :=
  if t < 1/2 then 2 * t ^ 2 else 1 - 2 * (1 - t) ^ 2

/-- Embedding of `withTiming(toV, { duration: d, easing: e })` started
while the cell holds `fromV`: the trajectory of the cell value as a
function of elapsed time `t` since the animation started.  While running,
the value is the eased interpolation between `fromV` and `toV`; once the
duration has elapsed the animation completes at exactly `toV` and stays
there. -/
def withTiming (fromV toV d : ℚ) (e : ℚ → ℚ) (t : ℚ) : ℚ :=
  if d ≤ t then toV else fromV + (toV - fromV) * e (t / d)

/-- Timeline A, the fade-in:
`opacity.value = withTiming(1, { duration: 1000 })`, started while the
cell holds its initial value 0 (from `useSharedValue(0)`), with the
default easing. -/
def opacityValue (t : ℚ) : ℚ :=
  withTiming 0 1 1000 easeInOutQuad t

/-- One iteration of the pulse:
`withSequence(withTiming(1.05, 2000ms, inOutEase), withTiming(1, 2000ms, inOutEase))`
started while the cell holds 1 (from `useSharedValue(1)` on the first
iteration, and the terminal value of the previous iteration afterwards).
The first leg runs on `[0, 2000)`, the second on `[2000, 4000)`. -/
def pulseSeq (e : ℚ → ℚ) (t : ℚ) : ℚ :=
  if t < 2000 then withTiming 1 (21/20) 2000 e t
  else withTiming (21/20) 1 2000 e (t - 2000)

/-- Rational remainder: `qmod t p = t − p * ⌊t / p⌋`, the representative of
`t` modulo `p` in `[0, p)` for `p > 0`. -/
def qmod (t p : ℚ) : ℚ :=
  t - p * (⌊t / p⌋ : ℤ)

/-- Timeline B, the pulse:
`scale.value = withRepeat(withSequence(...), -1, false)` — the two-leg
sequence restarted from its first leg each time it completes, with no
automatic reversal, forever.  The cell value at elapsed time `t` is the
sequence evaluated at `t` modulo the 4000ms length of one iteration. -/
def scaleValue (e : ℚ → ℚ) (t : ℚ) : ℚ :=
  pulseSeq e (qmod t 4000)

/-! ### Component lifecycle

The component body declares two shared-value cells
(`useSharedValue(1)` for scale, `useSharedValue(0)` for opacity), a
`useEffect(…, [])` whose body assigns both animations, and a
`useAnimatedStyle` projection.  The lifecycle is embedded as a state
machine: a state records the elapsed time since mount, the effect hook's
bookkeeping (last seen dependency array, number of executions of the
effect body, whether the body registered a cleanup action — the source's
effect body returns nothing, so it never does), and the start times of the
two animations (`none` while a cell still holds its mount-time initial
value). -/

/-- The dependency array of the `useEffect` call: the empty array. -/
def effectDeps : List ℚ := []

/-- Lifecycle state of one mounted instance of the component. -/
structure CompState where
  now : ℚ
  prevDeps : Option (List ℚ)
  startCount : ℕ
  cleanupRegistered : Bool
  opacityStart : Option ℚ
  scaleStart : Option ℚ
  deriving Repr, DecidableEq

/-- State at mount, before the first render commits: clock at 0, the
effect has never run, no animation attached to either cell. -/
def initState : CompState :=
  { now := 0
    prevDeps := none
    startCount := 0
    cleanupRegistered := false
    opacityStart := none
    scaleStart := none }

/-- The effect body (`start()` in the spec's terms): assigns the fade-in
to the opacity cell and the repeated pulse to the scale cell, both
starting at the current instant.  The body returns no value, so no
cleanup action is registered. -/
def runEffect (s : CompState) : CompState :=
  { s with
    prevDeps := some effectDeps
    startCount := s.startCount + 1
    cleanupRegistered := false
    opacityStart := some s.now
    scaleStart := some s.now }

/-- A render commit followed by React's effects phase: an effect with
dependency array `deps` runs after the first render, and on later renders
only if the dependency array changed since the last run.  `effectDeps` is
the empty array, which never changes. -/
def renderStep (s : CompState) : CompState :=
  match s.prevDeps with
  | none => runEffect s
  | some d => if d = effectDeps then s else runEffect s

/-- A frame tick of the host: advances the clock by `dt`. -/
def tickStep (dt : ℚ) (s : CompState) : CompState :=
  { s with now := s.now + dt }

/-- Unmount: React runs the effect's registered cleanup action, if any.
The source registers none, so nothing detaches the animations. -/
def unmountStep (s : CompState) : CompState :=
  if s.cleanupRegistered then
    { s with opacityStart := none, scaleStart := none }
  else s

/-- Events a mounted instance can observe before unmount. -/
inductive Ev where
  | render : Ev
  | tick : ℚ → Ev
  deriving Repr, DecidableEq

def stepEv : Ev → CompState → CompState
  | Ev.render, s => renderStep s
  | Ev.tick dt, s => tickStep dt s

def runEvs : List Ev → CompState → CompState
  | [], s => s
  | ev :: evs, s => runEvs evs (stepEv ev s)

/-- Current value of the opacity cell: its initial value 0 until the
fade-in is attached, afterwards the fade-in trajectory sampled at the
elapsed time since it started. -/
def readOpacity (s : CompState) : ℚ :=
  match s.opacityStart with
  | none => 0
  | some t0 => opacityValue (s.now - t0)

/-- Current value of the scale cell: its initial value 1 until the pulse
is attached, afterwards the pulse trajectory sampled at the elapsed time
since it started. -/
def readScale (e : ℚ → ℚ) (s : CompState) : ℚ :=
  match s.scaleStart with
  | none => 1
  | some t0 => scaleValue e (s.now - t0)

/-- The single entry of the `transform` array of the style object. -/
structure TransformEntry where
  scale : ℚ
  deriving Repr, DecidableEq

/-- The style object built by the `useAnimatedStyle` closure:
`{ transform: [{ scale: scale.value }], opacity: opacity.value }`. -/
structure StyleSnapshot where
  transform : List TransformEntry
  opacity : ℚ
  deriving Repr, DecidableEq

/-- Embedding of `project()`: one invocation of the `useAnimatedStyle`
closure.  It reads both cells and returns the style object together with
the (unchanged) state — the closure performs no assignment. -/
def projectCall (e : ℚ → ℚ) (s : CompState) : StyleSnapshot × CompState :=
  ({ transform := [{ scale := readScale e s }], opacity := readOpacity s }, s)

/-- A concrete run used as a sample point: mount, render, then a 500ms
frame tick. -/
def wStateA : CompState :=
  tickStep 500 (renderStep initState)

/-- A concrete run whose animations start 300ms after the clock origin but
have the same elapsed animation time as `wStateA`. -/
def wStateB : CompState :=
  tickStep 500 (renderStep (tickStep 300 initState))

/-! ### General lemmas about the embedded combinators -/

/-- An easing curve stays within `[0,1]` on `[0,1]`. -/
theorem IsEasing.mem_unit {e : ℚ → ℚ} (he : IsEasing e) {t : ℚ}
    (h0 : 0 ≤ t) (h1 : t ≤ 1) : 0 ≤ e t ∧ e t ≤ 1 := by
  constructor
  · have h := he.mono 0 t le_rfl h0 h1
    rwa [he.map_zero] at h
  · have h := he.mono t 1 h0 h1 le_rfl
    rwa [he.map_one] at h

/-- The default in-out quadratic curve is an easing curve. -/
theorem easeInOutQuad_isEasing : IsEasing easeInOutQuad := by
  refine ⟨by simp [easeInOutQuad], by norm_num [easeInOutQuad], ?_⟩
  intro s t hs hst ht1
  unfold easeInOutQuad
  rcases lt_or_le s (1/2) with hsl | hsr
  · rcases lt_or_le t (1/2) with htl | htr
    · rw [if_pos hsl, if_pos htl]; nlinarith
    · rw [if_pos hsl, if_neg (not_lt.mpr htr)]; nlinarith
  · rcases lt_or_le t (1/2) with htl | htr
    · exact absurd (lt_of_le_of_lt hst htl) (not_lt.mpr hsr)
    · rw [if_neg (not_lt.mpr hsr), if_neg (not_lt.mpr htr)]; nlinarith

theorem qmod_eq_fract (t p : ℚ) (hp : p ≠ 0) : qmod t p = p * Int.fract (t / p) := by
  unfold qmod Int.fract
  field_simp

theorem qmod_nonneg (t p : ℚ) (hp : 0 < p) : 0 ≤ qmod t p := by
  rw [qmod_eq_fract t p hp.ne']
  exact mul_nonneg hp.le (Int.fract_nonneg _)

theorem qmod_lt (t p : ℚ) (hp : 0 < p) : qmod t p < p := by
  rw [qmod_eq_fract t p hp.ne']
  calc p * Int.fract (t / p) < p * 1 := by
        exact mul_lt_mul_of_pos_left (Int.fract_lt_one _) hp
    _ = p := mul_one p

theorem qmod_eq_self {t p : ℚ} (h0 : 0 ≤ t) (hlt : t < p) : qmod t p = t := by
  have hp : 0 < p := lt_of_le_of_lt h0 hlt
  have hf : ⌊t / p⌋ = 0 := by
    rw [Int.floor_eq_zero_iff]
    exact ⟨div_nonneg h0 hp.le, (div_lt_one hp).mpr hlt⟩
  unfold qmod
  rw [hf]
  push_cast
  ring

theorem qmod_add_period (t p : ℚ) (hp : p ≠ 0) : qmod (t + p) p = qmod t p := by
  unfold qmod
  have hd : (t + p) / p = t / p + 1 := by field_simp
  rw [hd, Int.floor_add_one]
  push_cast
  ring

theorem qmod_qmod (t p : ℚ) (hp : 0 < p) : qmod (qmod t p) p = qmod t p :=
  qmod_eq_self (qmod_nonneg t p hp) (qmod_lt t p hp)

theorem qmod_mul_nat (p : ℚ) (k : ℕ) (hp : p ≠ 0) : qmod (p * k) p = 0 := by
  unfold qmod
  have hd : p * (k : ℚ) / p = (k : ℚ) := by field_simp
  rw [hd, Int.floor_natCast]
  push_cast
  ring

/-! ### Lemmas about the fade-in trajectory -/

theorem opacityValue_of_ge {t : ℚ} (h : 1000 ≤ t) : opacityValue t = 1 := by
  unfold opacityValue withTiming
  rw [if_pos h]

theorem opacityValue_of_lt {t : ℚ} (h : t < 1000) :
    opacityValue t = easeInOutQuad (t / 1000) := by
  unfold opacityValue withTiming
  rw [if_neg (not_le.mpr h)]
  ring

theorem opacityValue_mono {s t : ℚ} (hs : 0 ≤ s) (hst : s ≤ t) :
    opacityValue s ≤ opacityValue t := by
  rcases le_or_lt 1000 s with h1 | h1
  · rw [opacityValue_of_ge h1, opacityValue_of_ge (le_trans h1 hst)]
  · rcases le_or_lt 1000 t with h2 | h2
    · rw [opacityValue_of_lt h1, opacityValue_of_ge h2]
      exact (easeInOutQuad_isEasing.mem_unit (div_nonneg hs (by norm_num))
        (by linarith)).2
    · rw [opacityValue_of_lt h1, opacityValue_of_lt h2]
      exact easeInOutQuad_isEasing.mono _ _ (div_nonneg hs (by norm_num))
        (by linarith) (by linarith)

theorem opacityValue_zero : opacityValue 0 = 0 := by
  rw [opacityValue_of_lt (by norm_num)]
  norm_num [easeInOutQuad]

theorem opacityValue_bounds {t : ℚ} (h0 : 0 ≤ t) :
    0 ≤ opacityValue t ∧ opacityValue t ≤ 1 := by
  rcases le_or_lt 1000 t with h1 | h1
  · rw [opacityValue_of_ge h1]; norm_num
  · rw [opacityValue_of_lt h1]
    exact easeInOutQuad_isEasing.mem_unit (div_nonneg h0 (by norm_num))
      (by linarith)

/-! ### Lemmas about the pulse trajectory -/

theorem pulseSeq_leg1 {e : ℚ → ℚ} {t : ℚ} (h2 : t < 2000) :
    pulseSeq e t = 1 + (1/20) * e (t / 2000) := by
  unfold pulseSeq withTiming
  rw [if_pos h2, if_neg (not_le.mpr h2)]
  ring

theorem pulseSeq_leg2 {e : ℚ → ℚ} {t : ℚ} (h2 : 2000 ≤ t) (h4 : t < 4000) :
    pulseSeq e t = 21/20 - (1/20) * e ((t - 2000) / 2000) := by
  unfold pulseSeq withTiming
  rw [if_neg (not_lt.mpr h2), if_neg (not_le.mpr (by linarith))]
  ring

theorem pulseSeq_zero {e : ℚ → ℚ} (he : IsEasing e) : pulseSeq e 0 = 1 := by
  rw [pulseSeq_leg1 (by norm_num)]
  have h0 : (0 : ℚ) / 2000 = 0 := by norm_num
  rw [h0, he.map_zero]
  ring

theorem pulseSeq_bounds {e : ℚ → ℚ} (he : IsEasing e) {t : ℚ}
    (h0 : 0 ≤ t) (h4 : t < 4000) :
    1 ≤ pulseSeq e t ∧ pulseSeq e t ≤ 21/20 := by
  rcases lt_or_le t 2000 with h2 | h2
  · rw [pulseSeq_leg1 h2]
    obtain ⟨hl, hr⟩ := he.mem_unit (t := t / 2000)
      (div_nonneg h0 (by norm_num)) (by linarith)
    constructor <;> nlinarith
  · rw [pulseSeq_leg2 h2 h4]
    obtain ⟨hl, hr⟩ := he.mem_unit (t := (t - 2000) / 2000)
      (div_nonneg (by linarith) (by norm_num)) (by linarith)
    constructor <;> nlinarith

theorem scaleValue_qmod (e : ℚ → ℚ) (t : ℚ) :
    scaleValue e t = scaleValue e (qmod t 4000) := by
  unfold scaleValue
  rw [qmod_qmod t 4000 (by norm_num)]

theorem scaleValue_period (e : ℚ → ℚ) (t : ℚ) :
    scaleValue e (t + 4000) = scaleValue e t := by
  unfold scaleValue
  rw [qmod_add_period t 4000 (by norm_num)]

theorem scaleValue_of_mem {e : ℚ → ℚ} {t : ℚ} (h0 : 0 ≤ t) (h4 : t < 4000) :
    scaleValue e t = pulseSeq e t := by
  unfold scaleValue
  rw [qmod_eq_self h0 h4]

theorem scaleValue_zero {e : ℚ → ℚ} (he : IsEasing e) : scaleValue e 0 = 1 := by
  rw [scaleValue_of_mem le_rfl (by norm_num)]
  exact pulseSeq_zero he

theorem scaleValue_at_peak {e : ℚ → ℚ} (he : IsEasing e) :
    scaleValue e 2000 = 21/20 := by
  rw [scaleValue_of_mem (by norm_num) (by norm_num),
    pulseSeq_leg2 le_rfl (by norm_num)]
  have h0 : ((2000 : ℚ) - 2000) / 2000 = 0 := by norm_num
  rw [h0, he.map_zero]
  ring

theorem scaleValue_bounds {e : ℚ → ℚ} (he : IsEasing e) (t : ℚ) :
    1 ≤ scaleValue e t ∧ scaleValue e t ≤ 21/20 := by
  unfold scaleValue
  exact pulseSeq_bounds he (qmod_nonneg t 4000 (by norm_num))
    (qmod_lt t 4000 (by norm_num))

/-! ### Lemmas about the lifecycle state machine -/

theorem renderStep_of_ran {s : CompState} (h : s.prevDeps = some effectDeps) :
    renderStep s = s := by
  unfold renderStep
  rw [h]
  simp

theorem renderStep_of_fresh {s : CompState} (h : s.prevDeps = none) :
    renderStep s = runEffect s := by
  unfold renderStep
  rw [h]

theorem runEvs_of_ran (evs : List Ev) :
    ∀ s : CompState, s.prevDeps = some effectDeps →
      (runEvs evs s).startCount = s.startCount ∧
      (runEvs evs s).prevDeps = some effectDeps := by
  induction evs with
  | nil => exact fun s h => ⟨rfl, h⟩
  | cons ev evs ih =>
    intro s h
    cases ev with
    | render =>
      simp only [runEvs, stepEv, renderStep_of_ran h]
      exact ih s h
    | tick dt =>
      exact ih (tickStep dt s) h

theorem runEvs_startCount (evs : List Ev) :
    ∀ s : CompState, s.prevDeps = none →
      (runEvs evs s).startCount =
        s.startCount + (if Ev.render ∈ evs then 1 else 0) := by
  induction evs with
  | nil => intro s _; simp [runEvs]
  | cons ev evs ih =>
    intro s h
    cases ev with
    | render =>
      show (runEvs evs (renderStep s)).startCount = _
      rw [renderStep_of_fresh h, (runEvs_of_ran evs (runEffect s) rfl).1]
      simp [runEffect]
    | tick dt =>
      show (runEvs evs (tickStep dt s)).startCount = _
      rw [ih (tickStep dt s) h]
      simp [tickStep]

theorem runEvs_cleanup (evs : List Ev) :
    ∀ s : CompState, s.cleanupRegistered = false →
      (runEvs evs s).cleanupRegistered = false := by
  induction evs with
  | nil => exact fun s h => h
  | cons ev evs ih =>
    intro s h
    cases ev with
    | render =>
      show (runEvs evs (renderStep s)).cleanupRegistered = false
      apply ih
      unfold renderStep
      cases hp : s.prevDeps with
      | none => simp [runEffect]
      | some d =>
        by_cases hd : d = effectDeps
        · simp [hd, h]
        · simp [hd, runEffect]
    | tick dt =>
      exact ih (tickStep dt s) h

/-! ### The claims -/

/-- C1: after `start()`, the fade-in value is monotonically non-decreasing
on `[0, 1000]` ms, equals 1 at 1000 ms, the timeline runs exactly once,
and for every `t ≥ 1000` ms the opacity stays 1 — it is never mutated
again. -/
theorem claim_C1 :
    (∀ s t : ℚ, 0 ≤ s → s ≤ t → t ≤ 1000 → opacityValue s ≤ opacityValue t) ∧
    opacityValue 1000 = 1 ∧
    (∀ t : ℚ, 1000 ≤ t → opacityValue t = 1) :=
  ⟨fun _ _ hs hst _ => opacityValue_mono hs hst,
   opacityValue_of_ge le_rfl,
   fun _ ht => opacityValue_of_ge ht⟩

/-- Witness for C1 at concrete sample times 250, 750, 1000 and 2500 ms. -/
theorem claim_C1_witness :
    ((0 : ℚ) ≤ 250 ∧ (250 : ℚ) ≤ 750 ∧ (750 : ℚ) ≤ 1000 ∧ (1000 : ℚ) ≤ 2500) ∧
    opacityValue 250 ≤ opacityValue 750 ∧
    opacityValue 1000 = 1 ∧
    opacityValue 2500 = 1 :=
  ⟨⟨by norm_num, by norm_num, by norm_num, by norm_num⟩,
   claim_C1.1 250 750 (by norm_num) (by norm_num) (by norm_num),
   claim_C1.2.1,
   claim_C1.2.2 2500 (by norm_num)⟩

/-- C2: the pulse is an unbounded repetition of a two-leg sequence: the
scale interpolates 1 → 1.05 over the first 2000 ms of each cycle and
1.05 → 1 over the second 2000 ms, each leg eased by the declared curve;
after a cycle the repetition restarts at leg 1 without reversing
(`scaleValue (t + 4000) = scaleValue t`); and the value at 2000 ms into
the loop is exactly 1.05. -/
theorem claim_C2 (e : ℚ → ℚ) (he : IsEasing e) :
    (∀ t : ℚ, 0 ≤ t → t < 2000 → scaleValue e t = 1 + (1/20) * e (t / 2000)) ∧
    (∀ t : ℚ, 2000 ≤ t → t < 4000 →
      scaleValue e t = 21/20 - (1/20) * e ((t - 2000) / 2000)) ∧
    (∀ t : ℚ, scaleValue e (t + 4000) = scaleValue e t) ∧
    scaleValue e 2000 = 21/20 :=
  ⟨fun t h0 h2 => by rw [scaleValue_of_mem h0 (by linarith)]; exact pulseSeq_leg1 h2,
   fun t h2 h4 => by
     rw [scaleValue_of_mem (by linarith) h4]; exact pulseSeq_leg2 h2 h4,
   fun t => scaleValue_period e t,
   scaleValue_at_peak he⟩

/-- Witness for C2 with the concrete in-out quadratic easing at sample
times 1000, 3000, 500 and 2000 ms. -/
theorem claim_C2_witness :
    IsEasing easeInOutQuad ∧
    scaleValue easeInOutQuad 1000 = 1 + (1/20) * easeInOutQuad (1000 / 2000) ∧
    scaleValue easeInOutQuad 3000 = 21/20 - (1/20) * easeInOutQuad ((3000 - 2000) / 2000) ∧
    scaleValue easeInOutQuad (500 + 4000) = scaleValue easeInOutQuad 500 ∧
    scaleValue easeInOutQuad 2000 = 21/20 :=
  ⟨easeInOutQuad_isEasing,
   (claim_C2 easeInOutQuad easeInOutQuad_isEasing).1 1000 (by norm_num) (by norm_num),
   (claim_C2 easeInOutQuad easeInOutQuad_isEasing).2.1 3000 (by norm_num) (by norm_num),
   (claim_C2 easeInOutQuad easeInOutQuad_isEasing).2.2.1 500,
   (claim_C2 easeInOutQuad easeInOutQuad_isEasing).2.2.2⟩

/-- C3: for every `t ≥ 1000` ms the pulse is periodic with period 4000 ms
(`scaleValue t = scaleValue (t mod 4000)`), and at every multiple of
4000 ms into the loop the scale returns to exactly 1. -/
theorem claim_C3 (e : ℚ → ℚ) (he : IsEasing e) :
    (∀ t : ℚ, 1000 ≤ t → scaleValue e t = scaleValue e (qmod t 4000)) ∧
    (∀ k : ℕ, scaleValue e (4000 * k) = 1) := by
  constructor
  · exact fun t _ => scaleValue_qmod e t
  · intro k
    unfold scaleValue
    rw [qmod_mul_nat 4000 k (by norm_num)]
    exact pulseSeq_zero he

/-- Witness for C3 with the concrete in-out quadratic easing at 5000 ms
and at the second cycle boundary. -/
theorem claim_C3_witness :
    IsEasing easeInOutQuad ∧ (1000 : ℚ) ≤ 5000 ∧
    scaleValue easeInOutQuad 5000 = scaleValue easeInOutQuad (qmod 5000 4000) ∧
    scaleValue easeInOutQuad (4000 * (2 : ℕ)) = 1 :=
  ⟨easeInOutQuad_isEasing, by norm_num,
   (claim_C3 easeInOutQuad easeInOutQuad_isEasing).1 5000 (by norm_num),
   (claim_C3 easeInOutQuad easeInOutQuad_isEasing).2 2⟩

/-- C4: at `t = 0`, immediately after mount and before any animation tick,
the opacity cell reads 0 and the scale cell reads 1 — both before the
mount effect runs and just after it attaches the animations. -/
theorem claim_C4 (e : ℚ → ℚ) (he : IsEasing e) :
    readOpacity initState = 0 ∧
    readScale e initState = 1 ∧
    readOpacity (renderStep initState) = 0 ∧
    readScale e (renderStep initState) = 1 := by
  refine ⟨rfl, rfl, ?_, ?_⟩
  · show readOpacity (renderStep initState) = 0
    rw [renderStep_of_fresh rfl]
    show opacityValue ((0 : ℚ) - 0) = 0
    rw [show ((0 : ℚ) - 0) = 0 by norm_num]
    exact opacityValue_zero
  · show readScale e (renderStep initState) = 1
    rw [renderStep_of_fresh rfl]
    show scaleValue e ((0 : ℚ) - 0) = 1
    rw [show ((0 : ℚ) - 0) = 0 by norm_num]
    exact scaleValue_zero he

/-- Witness for C4 with the concrete in-out quadratic easing. -/
theorem claim_C4_witness :
    IsEasing easeInOutQuad ∧
    readOpacity initState = 0 ∧
    readScale easeInOutQuad initState = 1 ∧
    readOpacity (renderStep initState) = 0 ∧
    readScale easeInOutQuad (renderStep initState) = 1 :=
  ⟨easeInOutQuad_isEasing, claim_C4 easeInOutQuad easeInOutQuad_isEasing⟩

/-- C5: at every sampled time `t ≥ 0` the opacity value stays within
`[0, 1]`, during the fade-in and forever after. -/
theorem claim_C5 (t : ℚ) (ht : 0 ≤ t) :
    0 ≤ opacityValue t ∧ opacityValue t ≤ 1 :=
  opacityValue_bounds ht

/-- Witness for C5 at the concrete sample time 600 ms. -/
theorem claim_C5_witness :
    (0 : ℚ) ≤ 600 ∧ 0 ≤ opacityValue 600 ∧ opacityValue 600 ≤ 1 :=
  ⟨by norm_num, claim_C5 600 (by norm_num)⟩

/-- C6: at every sampled time `t ≥ 0` the scale value stays within
`[1, 1.05]`: each leg interpolates between 1 and 1.05 with an easing
curve whose range is `[0, 1]`, and repetition preserves the bound. -/
theorem claim_C6 (e : ℚ → ℚ) (he : IsEasing e) (t : ℚ) (_ht : 0 ≤ t) :
    1 ≤ scaleValue e t ∧ scaleValue e t ≤ 21/20 :=
  scaleValue_bounds he t

/-- Witness for C6 with the concrete in-out quadratic easing at 3137 ms. -/
theorem claim_C6_witness :
    IsEasing easeInOutQuad ∧ (0 : ℚ) ≤ 3137 ∧
    1 ≤ scaleValue easeInOutQuad 3137 ∧ scaleValue easeInOutQuad 3137 ≤ 21/20 :=
  ⟨easeInOutQuad_isEasing, by norm_num,
   claim_C6 easeInOutQuad easeInOutQuad_isEasing 3137 (by norm_num)⟩

/-- C7: both animated values are deterministic pure functions of the
elapsed time since their animation started, and `project()` is a pure
read: it leaves the state unchanged, and a second invocation with no
intervening tick returns an identical style object. -/
theorem claim_C7 (e : ℚ → ℚ) :
    (∀ s : CompState, (projectCall e s).2 = s) ∧
    (∀ s : CompState,
      (projectCall e ((projectCall e s).2)).1 = (projectCall e s).1) ∧
    (∀ (s₁ s₂ : CompState) (a₁ a₂ : ℚ), s₁.opacityStart = some a₁ →
      s₂.opacityStart = some a₂ → s₁.now - a₁ = s₂.now - a₂ →
      readOpacity s₁ = readOpacity s₂) ∧
    (∀ (s₁ s₂ : CompState) (a₁ a₂ : ℚ), s₁.scaleStart = some a₁ →
      s₂.scaleStart = some a₂ → s₁.now - a₁ = s₂.now - a₂ →
      readScale e s₁ = readScale e s₂) := by
  refine ⟨fun _ => rfl, fun _ => rfl, ?_, ?_⟩
  · intro s₁ s₂ a₁ a₂ h₁ h₂ hel
    unfold readOpacity
    rw [h₁, h₂]
    exact congrArg opacityValue hel
  · intro s₁ s₂ a₁ a₂ h₁ h₂ hel
    unfold readScale
    rw [h₁, h₂]
    exact congrArg (scaleValue e) hel

/-- Witness for C7: two concrete runs whose animations started 0 ms and
300 ms after mount but were sampled at the same elapsed animation time
yield the same reads, and projection leaves a concrete state unchanged. -/
theorem claim_C7_witness :
    (wStateA.opacityStart = some 0 ∧ wStateB.opacityStart = some 300 ∧
      wStateA.now - 0 = wStateB.now - 300) ∧
    (projectCall easeInOutQuad wStateA).2 = wStateA ∧
    (projectCall easeInOutQuad ((projectCall easeInOutQuad wStateA).2)).1 =
      (projectCall easeInOutQuad wStateA).1 ∧
    readOpacity wStateA = readOpacity wStateB ∧
    readScale easeInOutQuad wStateA = readScale easeInOutQuad wStateB :=
  ⟨⟨rfl,
    by norm_num [wStateB, tickStep, renderStep, runEffect, initState],
    by norm_num [wStateA, wStateB, tickStep, renderStep, runEffect, initState]⟩,
   (claim_C7 easeInOutQuad).1 wStateA,
   (claim_C7 easeInOutQuad).2.1 wStateA,
   (claim_C7 easeInOutQuad).2.2.1 wStateA wStateB 0 300 rfl
     (by norm_num [wStateB, tickStep, renderStep, runEffect, initState])
     (by norm_num [wStateA, wStateB, tickStep, renderStep, runEffect, initState]),
   (claim_C7 easeInOutQuad).2.2.2 wStateA wStateB 0 300 rfl
     (by norm_num [wStateB, tickStep, renderStep, runEffect, initState])
     (by norm_num [wStateA, wStateB, tickStep, renderStep, runEffect, initState])⟩

/-- C8: every style object returned by `project()` has exactly the shape
`\x7b transform: [\x7b scale \x7d], opacity \x7d` with a single transform
entry; the scale field equals the current scale-cell value and the
opacity field the current opacity-cell value at call time, and the object
is recomputed on each request — after a tick it reflects the new
instant. -/
theorem claim_C8 (e : ℚ → ℚ) (s : CompState) :
    (projectCall e s).1.transform = [{ scale := readScale e s }] ∧
    (projectCall e s).1.opacity = readOpacity s ∧
    (projectCall e s).1.transform.length = 1 ∧
    ∀ dt : ℚ, (projectCall e (tickStep dt s)).1 =
      ⟨[{ scale := readScale e (tickStep dt s) }], readOpacity (tickStep dt s)⟩ :=
  ⟨rfl, rfl, rfl, fun _ => rfl⟩

/-- C9: the mount effect with an empty dependency array executes exactly
once per mount: along any sequence of renders and ticks of a mounted
instance, the effect body runs once when a render occurs and is never
re-run on later renders. -/
theorem claim_C9 (evs : List Ev) :
    (runEvs evs initState).startCount = if Ev.render ∈ evs then 1 else 0 := by
  have h := runEvs_startCount evs initState rfl
  simpa [initState] using h

/-- C10: the mount effect registers no cleanup action, so along any
sequence of renders and ticks nothing is registered for teardown and
unmounting changes nothing — this core never explicitly stops the
infinite pulse timeline. -/
theorem claim_C10 (evs : List Ev) :
    (runEvs evs initState).cleanupRegistered = false ∧
    unmountStep (runEvs evs initState) = runEvs evs initState := by
  have h := runEvs_cleanup evs initState rfl
  refine ⟨h, ?_⟩
  unfold unmountStep
  rw [h]
  simp

end Sequencer
